import Mathlib

/-!
Verification development for the restaurant recommendation service
(`app/recommend.py`, `app/osm_recommend.py`, `app/preprocess.py`,
`app/utils/text_cleaning.py`).  The ranking core is embedded shallowly:
records become structures, Python dict lookups become association-list
lookups, floating-point arithmetic is idealised as exact rationals (or
reals for the trigonometric Haversine formula), and Python exceptions
become `Option.none` propagated through the pipeline.
-/

/-! ## Definitions -/

/-- Insert `a` into `l` for a descending-by-`key` order, placing `a` before
the first element whose key is `≤ key a`.  Together with `sortKeyDesc` this
is the unique stable descending sort, which is the documented behaviour of
Python's `list.sort(key=..., reverse=True)` and `sorted(key=..., reverse=True)`
used by both recommenders. -/
def insKeyDesc (key : α → ℚ) (a : α) : List α → List α
  | [] => [a]
  | b :: l => if key b ≤ key a then a :: b :: l else b :: insKeyDesc key a l

/-- Stable descending sort by `key` (insertion sort formulation). -/
def sortKeyDesc (key : α → ℚ) : List α → List α
  | [] => []
  | a :: l => insKeyDesc key a (sortKeyDesc key l)

/-- Traverse a list with a fallible function; one failure fails the whole
traversal.  Models a Python `for` loop whose body may raise. -/
def tryMap (f : α → Option β) : List α → Option (List β)
  | [] => some []
  | a :: l =>
    match f a, tryMap f l with
    | some b, some bs => some (b :: bs)
    | _, _ => none

/-- Pair each list element with its position, starting at `i`. -/
def idxFrom (i : Nat) : List α → List (Nat × α)
  | [] => []
  | a :: l => (i, a) :: idxFrom (i + 1) l

/-- Python `str.lower` restricted to the alphabet relevant to `clean_text`:
ASCII upper-case letters and the upper-case forms of the accented Latin
letters appearing in the allowed character class.  Any other character is
left unchanged (its lower-case form, if different, lies outside the allowed
class and is substituted away by the next stage either way). -/
def pyLower (c : Char) : Char :=
  if 'A' ≤ c ∧ c ≤ 'Z' then Char.ofNat (c.toNat + 32)
  else if c = 'Á' then 'á'
  else if c = 'É' then 'é'
  else if c = 'Í' then 'í'
  else if c = 'Ó' then 'ó'
  else if c = 'Ú' then 'ú'
  else if c = 'Ã' then 'ã'
  else if c = 'Õ' then 'õ'
  else if c = 'Ç' then 'ç'
  else c

/-- The character class `[a-z0-9áéíóúãõç ]` of `text_cleaning.py`. -/
def allowedChar (c : Char) : Bool :=
  ('a' ≤ c && c ≤ 'z') || ('0' ≤ c && c ≤ '9') ||
    c = 'á' || c = 'é' || c = 'í' || c = 'ó' || c = 'ú' ||
    c = 'ã' || c = 'õ' || c = 'ç' || c = ' '

/-- Python regex `\s` on ASCII: space, tab, newline, carriage return,
vertical tab, form feed. -/
def isPySpace (c : Char) : Bool :=
  c = ' ' || c = '\t' || c = '\n' || c = '\r' || c = '\x0b' || c = '\x0c'

/-- `re.sub(r"[^a-z0-9áéíóúãõç ]", " ", text)`: the class matches one
character at a time, so every disallowed character is replaced by one
space. -/
def subDisallowed (s : List Char) : List Char :=
  s.map (fun c => if allowedChar c then c else ' ')

/-- `re.sub(r"\s+", " ", text)`: each maximal run of whitespace becomes a
single space. -/
def subSpaceRuns : List Char → List Char
  | [] => []
  | [c] => if isPySpace c then [' '] else [c]
  | a :: b :: l =>
    if isPySpace a && isPySpace b then subSpaceRuns (b :: l)
    else (if isPySpace a then ' ' else a) :: subSpaceRuns (b :: l)

/-- Python `str.strip()`: remove whitespace from both ends. -/
def stripEnds (s : List Char) : List Char :=
  ((s.dropWhile isPySpace).reverse.dropWhile isPySpace).reverse

/-- `clean_text` of `app/utils/text_cleaning.py`: lower-case, substitute
disallowed characters by a space, collapse whitespace runs, strip. -/
def clean_text (s : List Char) : List Char :=
  stripEnds (subSpaceRuns (subDisallowed (s.map pyLower)))

/-- Collapse runs of spaces to a single space (specification-side helper,
written independently of `subSpaceRuns`: it tracks whether the previous
character kept was a space instead of looking ahead). -/
def collapseAux : Bool → List Char → List Char
  | _, [] => []
  | prevSpace, c :: l =>
    if c = ' ' then
      if prevSpace then collapseAux true l else ' ' :: collapseAux true l
    else c :: collapseAux false l

/-- Collapse runs of spaces to a single space. -/
def collapseClaim (l : List Char) : List Char := collapseAux false l

/-- Trim leading and trailing spaces (specification-side helper). -/
def trimClaim (s : List Char) : List Char :=
  ((s.dropWhile (fun c => c = ' ')).reverse.dropWhile (fun c => c = ' ')).reverse

/-- The cleaner as the specification words it: characters outside the
allowed set are REMOVED (stripped), then whitespace runs are collapsed and
the ends trimmed. -/
def cleanTextClaim (s : List Char) : List Char :=
  trimClaim (collapseClaim ((s.map pyLower).filter allowedChar))

/-- The cleaner as amended: characters outside the allowed set are each
REPLACED BY A SPACE, then whitespace runs are collapsed and the ends
trimmed. -/
def cleanTextAmended (s : List Char) : List Char :=
  trimClaim (collapseClaim
    ((s.map pyLower).map (fun c => if allowedChar c then c else ' ')))

/-- Python `math.radians`: degrees to radians. -/
noncomputable def pyRadians (deg : ℝ) : ℝ := deg * Real.pi / 180

/-- `OSMRecommender.__haversine` (osm_recommend.py lines 115-131) over exact
real arithmetic: `R = 6371`, `a = sin²(Δlat/2) + cos(lat1)·cos(lat2)·sin²(Δlon/2)`,
`c = 2·asin(√a)`, result `R·c`. -/
noncomputable def haversineOSM (lat1 lon1 lat2 lon2 : ℝ) : ℝ :=
  6371 * (2 * Real.arcsin (Real.sqrt (
    Real.sin (pyRadians (lat2 - lat1) / 2) ^ 2 +
    Real.cos (pyRadians lat1) * Real.cos (pyRadians lat2) *
      Real.sin (pyRadians (lon2 - lon1) / 2) ^ 2)))

/-- `RestaurantRecommender.__haversine` (recommend.py lines 73-80): textually
the same formula as the live variant's. -/
noncomputable def haversineDS (lat1 lon1 lat2 lon2 : ℝ) : ℝ :=
  6371 * (2 * Real.arcsin (Real.sqrt (
    Real.sin (pyRadians (lat2 - lat1) / 2) ^ 2 +
    Real.cos (pyRadians lat1) * Real.cos (pyRadians lat2) *
      Real.sin (pyRadians (lon2 - lon1) / 2) ^ 2)))

/-- A raw Overpass element: `id`, `lat`, `lon` may each be absent from the
JSON object (`node.get(...)` returning `None`), `tags` is a string-keyed
dictionary. -/
structure OSMElement where
  id : Option Int
  lat : Option ℚ
  lon : Option ℚ
  tags : List (String × String)
deriving Repr, DecidableEq

/-- Python `dict.get(key)` on a string dictionary. -/
def dictFind (tags : List (String × String)) (key : String) : Option String :=
  (tags.find? (fun kv => kv.1 = key)).map (fun kv => kv.2)

/-- Python `dict.get(key, default)`. -/
def tagsGetD (tags : List (String × String)) (key dflt : String) : String :=
  (dictFind tags key).getD dflt

/-- The normalized restaurant dictionary built by
`OSMRecommender.__normalize_osm`: exactly the eleven keys of the dict
literal at osm_recommend.py lines 85-97. -/
structure OSMRecord where
  id : Option Int
  name : String
  cuisine : String
  opening_hours : String
  lat : Option ℚ
  lon : Option ℚ
  city : String
  street : String
  neighborhood : String
  number : String
  amenity : String
deriving Repr, DecidableEq

instance : Inhabited OSMRecord :=
  ⟨⟨none, "", "", "", none, none, "", "", "", "", ""⟩⟩

/-- `OSMRecommender.__normalize_osm`: `None` for elements without a name
tag, otherwise the normalized dictionary with `"unknown"` defaults. -/
def normalize_osm (node : OSMElement) : Option OSMRecord :=
  if (dictFind node.tags "name").isSome then
    some { id := node.id
         , name := tagsGetD node.tags "name" "Unknown"
         , cuisine := tagsGetD node.tags "cuisine" "unknown"
         , opening_hours := tagsGetD node.tags "opening_hours" "unknown"
         , lat := node.lat
         , lon := node.lon
         , city := tagsGetD node.tags "addr:city" "unknown"
         , street := tagsGetD node.tags "addr:street" "unknown"
         , neighborhood := tagsGetD node.tags "addr:suburb" "unknown"
         , number := tagsGetD node.tags "addr:housenumber" "unknown"
         , amenity := tagsGetD node.tags "amenity" "unknown" }
  else none

/-- Rendering of an optional coordinate inside an f-string (Python would
print the float, or `None`). -/
def optCoordStr : Option ℚ → String
  | none => "None"
  | some q => reprStr q

/-- `OSMRecommender.__build_description`: the f-string of lines 104-113,
concatenation and punctuation reproduced. -/
def build_description (r : OSMRecord) : String :=
  r.name ++ ". " ++
    "Cuisine: " ++ r.cuisine ++ ". " ++
    "Opening hours: " ++ r.opening_hours ++ ". " ++
    "Located at coordinates " ++ optCoordStr r.lat ++ ", " ++
    optCoordStr r.lon ++ "." ++
    "City: " ++ r.city ++ "." ++
    "Street: " ++ r.street ++
    "Neighborhood: " ++ r.neighborhood ++
    "Amenity: " ++ r.amenity

/-- Outcome of the Overpass HTTP POST, as distinguished by
`__fetch_osm_restaurants`: timeout, any other transport exception, or a
response with a status code and a body that is invalid JSON, JSON without
a top-level `elements` field, or JSON with an `elements` array. -/
inductive FetchBody where
  | invalidJson
  | jsonNoElements
  | jsonElements (elems : List OSMElement)
deriving Repr, DecidableEq

inductive FetchResponse where
  | timeout
  | transportError
  | response (status : Nat) (body : FetchBody)
deriving Repr, DecidableEq

/-- `OSMRecommender.__fetch_osm_restaurants` (lines 34-73) as a function of
the upstream response: every failure arm returns the empty list; a good
response is normalized and the `None` entries are dropped. -/
def fetch_osm_restaurants : FetchResponse → List OSMRecord
  | .timeout => []
  | .transportError => []
  | .response status body =>
    if status ≠ 200 then []
    else
      match body with
      | .invalidJson => []
      | .jsonNoElements => []
      | .jsonElements elems => (elems.map normalize_osm).filterMap id

/-- Modelled from the spec: the FAISS vector index used by both variants is
an external library whose sources are not part of this repository.  Section
4.4 of the specification gives its contract: `search(query_vector, k)`
returns the `k` highest inner-product matches sorted descending by score,
clamped to the number of stored vectors.  `scores` is the list of
inner products of the stored vectors with the query, in storage order. -/
def searchIndex (scores : List ℚ) (k : Nat) : List (Nat × ℚ) :=
  (sortKeyDesc (fun p => p.2) (idxFrom 0 scores)).take k

/-- A ranked live result: the enriched copy `r_out` of osm_recommend.py
lines 182-185 (the original record plus `similarity`, `distance_km`,
`final_score`). -/
structure RankedOSM where
  record : OSMRecord
  similarity : ℚ
  distance_km : ℚ
  final_score : ℚ
deriving Repr, DecidableEq

/-- The per-hit scoring of `OSMRecommender.recommend` (lines 170-187).
A record whose `lat` or `lon` is absent makes `__haversine` raise a
`TypeError` (there is no guard in the live variant), and a zero radius
makes the division raise `ZeroDivisionError`; both are modelled as `none`.
The physical distance function is abstracted as `dist` (see
`haversineOSM` for its formula-level properties). -/
def scoreHitLive (user_lat user_lon radius : ℚ) (dist : ℚ → ℚ → ℚ → ℚ → ℚ)
    (r : OSMRecord) (sim : ℚ) : Option RankedOSM :=
  r.lat.bind (fun la => r.lon.bind (fun lo =>
    if radius = 0 then none
    else
      some { record := r
           , similarity := sim
           , distance_km := dist user_lat user_lon la lo
           , final_score := 0.6 * sim +
               0.4 * max 0 (1 - dist user_lat user_lon la lo / (radius / 1000)) }))

/-- The `ranked` list of `OSMRecommender.recommend` just before sorting:
hits in index-search order, each scored. -/
def osmRanked (embedSim : String → ℚ) (dist : ℚ → ℚ → ℚ → ℚ → ℚ)
    (restaurants : List OSMRecord) (user_lat user_lon radius : ℚ)
    (k : Nat) : Option (List RankedOSM) :=
  tryMap
    (fun h => (restaurants[h.1]?).bind
      (fun r => scoreHitLive user_lat user_lon radius dist r h.2))
    (searchIndex (restaurants.map (fun r => embedSim (build_description r))) k)

/-- `OSMRecommender.recommend` (lines 133-192): empty fetch short-circuits
to `[]`; otherwise score the search hits, sort by final score descending
(stable `list.sort(..., reverse=True)`) and truncate to `k`.  The
embedding model is abstracted as `embedSim` (deterministic text-to-score,
spec section 4.3). -/
def osmRecommend (embedSim : String → ℚ) (dist : ℚ → ℚ → ℚ → ℚ → ℚ)
    (restaurants : List OSMRecord) (user_lat user_lon radius : ℚ)
    (k : Nat) : Option (List RankedOSM) :=
  if restaurants.isEmpty then some []
  else
    (osmRanked embedSim dist restaurants user_lat user_lon radius k).map
      (fun pre => (sortKeyDesc (fun x => x.final_score) pre).take k)

/-- A JSON value read from `processed.json`, as far as `float(...)` is
concerned: either a value that `float` converts (carrying the converted
rational) or one on which `float` raises (for instance a non-numeric
string). -/
inductive PyVal where
  | num (q : ℚ)
  | nonNum
deriving Repr, DecidableEq

/-- Python `float(v)`: `none` models the raised `ValueError`/`TypeError`. -/
def pyFloat : PyVal → Option ℚ
  | .num q => some q
  | .nonNum => none

/-- A processed dataset record, restricted to the fields
`recommend_restaurants` reads (`Latitude`, `Longitude`,
`Aggregate rating`, each possibly absent from the record) plus an
identifier and name standing for the remaining payload carried through
`r.copy()`. -/
structure DSRecord where
  restaurant_id : Int
  name : String
  latitude : Option PyVal
  longitude : Option PyVal
  aggregate_rating : Option PyVal
deriving Repr, DecidableEq

instance : Inhabited DSRecord := ⟨⟨0, "", none, none, none⟩⟩

/-- A ranked dataset result: the enriched copy `r_out` of recommend.py
lines 59-64. -/
structure RankedDS where
  record : DSRecord
  similarity : ℚ
  distance_km : ℚ
  rating_score : ℚ
  distance_score : ℚ
  final_score : ℚ
deriving Repr, DecidableEq

/-- The per-hit scoring of `RestaurantRecommender.recommend_restaurants`
(lines 32-66): `float(r.get("Latitude", 999))` and the `Longitude`
analogue (a missing coordinate defaults to the sentinel `999`; a
non-convertible value raises, modelled by `none`), the `999` guard sets
`distance_km = 9999`, the distance score is normalized against the fixed
`max_dist = 100`, the rating score is `rating / 5`, and the final score is
the `0.4 / 0.25 / 0.35` weighted sum. -/
def scoreHitDS (user_lat user_lon : ℚ) (dist : ℚ → ℚ → ℚ → ℚ → ℚ)
    (r : DSRecord) (sim : ℚ) : Option RankedDS :=
  (pyFloat (r.latitude.getD (.num 999))).bind (fun lat =>
  (pyFloat (r.longitude.getD (.num 999))).bind (fun lon =>
  (pyFloat (r.aggregate_rating.getD (.num 0))).map (fun rating =>
    { record := r
    , similarity := sim
    , distance_km :=
        if lat = 999 ∨ lon = 999 then (9999 : ℚ)
        else dist user_lat user_lon lat lon
    , rating_score := rating / 5
    , distance_score :=
        max 0 (1 - (if lat = 999 ∨ lon = 999 then (9999 : ℚ)
          else dist user_lat user_lon lat lon) / 100)
    , final_score := 0.4 * sim + 0.25 * (rating / 5) +
        0.35 * max 0 (1 - (if lat = 999 ∨ lon = 999 then (9999 : ℚ)
          else dist user_lat user_lon lat lon) / 100) })))

/-- The `results` list of `recommend_restaurants` just before sorting:
hits in index-search order, each scored. -/
def dsRanked (dsSim : DSRecord → ℚ) (dist : ℚ → ℚ → ℚ → ℚ → ℚ)
    (db : List DSRecord) (user_lat user_lon : ℚ) (k : Nat) :
    Option (List RankedDS) :=
  tryMap
    (fun h => (db[h.1]?).bind
      (fun r => scoreHitDS user_lat user_lon dist r h.2))
    (searchIndex (db.map dsSim) k)

/-- `RestaurantRecommender.recommend_restaurants` (lines 21-71) with the
shared record list `self.db` passed (and returned) as explicit state.
`dsSim` abstracts the inner product of the encoded query with the record's
persisted embedding (the index/record ordinal correspondence of spec
section 3 lets it be indexed by the record).  The loop only reads
`self.db` and enriches copies, so the state component is returned as it
came in. -/
def recommend_restaurants (dsSim : DSRecord → ℚ) (dist : ℚ → ℚ → ℚ → ℚ → ℚ)
    (db : List DSRecord) (user_lat user_lon : ℚ) (k : Nat) :
    Option (List RankedDS) × List DSRecord :=
  ((dsRanked dsSim dist db user_lat user_lon k).map
    (fun pre => (sortKeyDesc (fun x => x.final_score) pre).take k), db)

/-- The value `scoreHitLive` produces when both coordinates are present and
the radius is non-zero. -/
def scoreLiveTotal (user_lat user_lon radius : ℚ)
    (dist : ℚ → ℚ → ℚ → ℚ → ℚ) (r : OSMRecord) (sim : ℚ) : RankedOSM :=
  { record := r
  , similarity := sim
  , distance_km := dist user_lat user_lon (r.lat.getD 0) (r.lon.getD 0)
  , final_score := 0.6 * sim + 0.4 * max 0
      (1 - dist user_lat user_lon (r.lat.getD 0) (r.lon.getD 0) / (radius / 1000)) }

/-- The value `scoreHitDS` produces when all three `float(...)` calls
succeed. -/
def scoreDSTotal (user_lat user_lon : ℚ)
    (dist : ℚ → ℚ → ℚ → ℚ → ℚ) (r : DSRecord) (sim : ℚ) : RankedDS :=
  let lat := (pyFloat (r.latitude.getD (.num 999))).getD 0
  let lon := (pyFloat (r.longitude.getD (.num 999))).getD 0
  let rating := (pyFloat (r.aggregate_rating.getD (.num 0))).getD 0
  { record := r
  , similarity := sim
  , distance_km := if lat = 999 ∨ lon = 999 then (9999 : ℚ)
      else dist user_lat user_lon lat lon
  , rating_score := rating / 5
  , distance_score := max 0 (1 - (if lat = 999 ∨ lon = 999 then (9999 : ℚ)
      else dist user_lat user_lon lat lon) / 100)
  , final_score := 0.4 * sim + 0.25 * (rating / 5) +
      0.35 * max 0 (1 - (if lat = 999 ∨ lon = 999 then (9999 : ℚ)
        else dist user_lat user_lon lat lon) / 100) }

/-- The upstream failure modes listed by the specification for the live
candidate fetch: timeout, any other transport exception, a non-200 status,
a malformed (non-JSON) body, or a JSON body missing the top-level
`elements` field. -/
def fetchFailure : FetchResponse → Prop
  | .timeout => True
  | .transportError => True
  | .response status body =>
    status ≠ 200 ∨ body = .invalidJson ∨ body = .jsonNoElements

/-- A live record without a latitude, and a dataset record whose latitude
is present but not float-convertible: inputs on which the claimed
"no error, distance score 0" behaviour fails. -/
def cRecNoLat : OSMRecord :=
  ⟨some 9, "NoCoords", "unknown", "unknown", none, some 1,
    "unknown", "unknown", "unknown", "unknown", "restaurant"⟩

def cDsNonNum : DSRecord := ⟨9, "BadLat", some .nonNum, some (.num 1), some (.num 3)⟩

def wRecA : OSMRecord :=
  ⟨some 1, "Cafe A", "coffee", "8-18", some 1, some 1, "T", "S", "N", "5", "cafe"⟩

def wRecB : OSMRecord :=
  ⟨some 2, "Bar B", "beer", "18-23", some 2, some 2, "T", "S", "N", "6", "bar"⟩

def wSim : String → ℚ := fun _ => 1

def wDist : ℚ → ℚ → ℚ → ℚ → ℚ := fun _ _ a b => a + b

def wDsA : DSRecord := ⟨1, "A", some (.num 1), some (.num 1), some (.num 4)⟩

def wDsB : DSRecord := ⟨2, "B", none, some (.num 1), some (.num 2)⟩

def wX : RankedOSM := ⟨wRecA, 1, 2, 3/5⟩

def wX2 : RankedOSM := ⟨wRecB, 1, 4, 3/5⟩

def wOutOSM : List RankedOSM := [wX, wX2]

def wY : RankedDS := ⟨wDsA, 1, 2, 4/5, 49/50, 943/1000⟩

def wY2 : RankedDS := ⟨wDsB, 1, 9999, 2/5, 0, 1/2⟩

def wOutDS : List RankedDS := [wY, wY2]

def wElemNamed : OSMElement :=
  ⟨some 1, some 1, some 2, [("name", "Cafe"), ("amenity", "cafe")]⟩

def wElemNoName : OSMElement := ⟨some 2, some 3, some 4, [("amenity", "bar")]⟩

def wRecNamed : OSMRecord :=
  ⟨some 1, "Cafe", "unknown", "unknown", some 1, some 2,
    "unknown", "unknown", "unknown", "unknown", "cafe"⟩

/-! ## Theorems -/

theorem mem_insKeyDesc (key : α → ℚ) (a x : α) (l : List α) :
    x ∈ insKeyDesc key a l ↔ x = a ∨ x ∈ l := by
  induction l with
  | nil => simp [insKeyDesc]
  | cons b l ih =>
    simp only [insKeyDesc]
    split
    · simp
    · simp [ih, or_left_comm]

theorem insKeyDesc_perm (key : α → ℚ) (a : α) (l : List α) :
    List.Perm (insKeyDesc key a l) (a :: l) := by
  induction l with
  | nil => exact List.Perm.refl _
  | cons b l ih =>
    simp only [insKeyDesc]
    split
    · exact List.Perm.refl _
    · exact (ih.cons b).trans (List.Perm.swap a b l)

theorem sortKeyDesc_perm (key : α → ℚ) (l : List α) :
    List.Perm (sortKeyDesc key l) l := by
  induction l with
  | nil => exact List.Perm.refl _
  | cons a l ih => exact (insKeyDesc_perm key a _).trans (ih.cons a)

theorem length_sortKeyDesc (key : α → ℚ) (l : List α) :
    (sortKeyDesc key l).length = l.length :=
  (sortKeyDesc_perm key l).length_eq

theorem mem_sortKeyDesc (key : α → ℚ) (l : List α) (x : α) :
    x ∈ sortKeyDesc key l ↔ x ∈ l :=
  (sortKeyDesc_perm key l).mem_iff

theorem pairwise_insKeyDesc (key : α → ℚ) (a : α) (l : List α)
    (h : l.Pairwise (fun x y => key y ≤ key x)) :
    (insKeyDesc key a l).Pairwise (fun x y => key y ≤ key x) := by
  induction l with
  | nil => simp [insKeyDesc]
  | cons b l ih =>
    rw [List.pairwise_cons] at h
    simp only [insKeyDesc]
    split
    · rename_i hba
      refine List.Pairwise.cons ?_ (List.Pairwise.cons h.1 h.2)
      intro y hy
      rcases List.mem_cons.mp hy with rfl | hy
      · exact hba
      · exact le_trans (h.1 y hy) hba
    · rename_i hba
      refine List.Pairwise.cons ?_ (ih h.2)
      intro y hy
      rcases (mem_insKeyDesc key a y l).mp hy with rfl | hy
      · exact le_of_lt (lt_of_not_le hba)
      · exact h.1 y hy

theorem sortKeyDesc_sorted (key : α → ℚ) (l : List α) :
    (sortKeyDesc key l).Pairwise (fun x y => key y ≤ key x) := by
  induction l with
  | nil => simp [sortKeyDesc]
  | cons a l ih => exact pairwise_insKeyDesc key a _ ih

theorem filter_insKeyDesc_neg (key : α → ℚ) (p : α → Bool) (a : α) (l : List α)
    (ha : p a = false) :
    (insKeyDesc key a l).filter p = l.filter p := by
  induction l with
  | nil => simp [insKeyDesc, ha]
  | cons b l ih =>
    simp only [insKeyDesc]
    split
    · simp [List.filter, ha]
    · simp only [List.filter]
      cases hb : p b <;> simp [hb, ih]

theorem filter_insKeyDesc_pos (key : α → ℚ) (p : α → Bool) (a : α) (l : List α)
    (ha : p a = true) (h : ∀ b, p b = true → key b ≤ key a) :
    (insKeyDesc key a l).filter p = a :: l.filter p := by
  induction l with
  | nil => simp [insKeyDesc, ha]
  | cons b l ih =>
    simp only [insKeyDesc]
    split
    · simp [List.filter, ha]
    · rename_i hba
      have hb : p b = false := by
        cases hpb : p b
        · rfl
        · exact absurd (h b hpb) hba
      simp only [List.filter, hb]
      exact ih

/-- Stability of the descending sort: elements sharing one value `c` of the
sort key appear in the sorted output in exactly their original relative
order. -/
theorem filter_sortKeyDesc (key : α → ℚ) (c : ℚ) (l : List α) :
    (sortKeyDesc key l).filter (fun x => key x = c) =
      l.filter (fun x => key x = c) := by
  induction l with
  | nil => rfl
  | cons a l ih =>
    simp only [sortKeyDesc]
    cases ha : decide (key a = c) with
    | false =>
      rw [filter_insKeyDesc_neg key _ a _ ha, ih]
      simp [List.filter, ha]
    | true =>
      have hac : key a = c := of_decide_eq_true ha
      rw [filter_insKeyDesc_pos key _ a _ ha, ih]
      · simp [List.filter, ha]
      · intro b hb
        have : key b = c := of_decide_eq_true hb
        rw [this, hac]

theorem tryMap_length (f : α → Option β) (l : List α) (bs : List β)
    (h : tryMap f l = some bs) : bs.length = l.length := by
  induction l generalizing bs with
  | nil => simp [tryMap] at h; simp [← h]
  | cons a l ih =>
    simp only [tryMap] at h
    cases hfa : f a with
    | none => rw [hfa] at h; cases h
    | some b =>
      rw [hfa] at h
      cases htl : tryMap f l with
      | none => rw [htl] at h; cases h
      | some bs' =>
        rw [htl] at h
        cases h
        simp [ih bs' htl]

theorem tryMap_mem (f : α → Option β) (l : List α) (bs : List β)
    (h : tryMap f l = some bs) : ∀ b ∈ bs, ∃ a ∈ l, f a = some b := by
  induction l generalizing bs with
  | nil =>
    simp only [tryMap, Option.some_inj] at h
    subst h
    simp
  | cons a l ih =>
    simp only [tryMap] at h
    cases hfa : f a with
    | none => rw [hfa] at h; cases h
    | some b0 =>
      rw [hfa] at h
      cases htl : tryMap f l with
      | none => rw [htl] at h; cases h
      | some bs' =>
        rw [htl] at h
        cases h
        intro b hb
        rcases List.mem_cons.mp hb with rfl | hb
        · exact ⟨a, List.mem_cons_self a l, hfa⟩
        · rcases ih bs' htl b hb with ⟨a', ha', hfa'⟩
          exact ⟨a', List.mem_cons_of_mem a ha', hfa'⟩

theorem tryMap_eq_map (f : α → Option β) (g : α → β) (l : List α)
    (h : ∀ a ∈ l, f a = some (g a)) : tryMap f l = some (l.map g) := by
  induction l with
  | nil => rfl
  | cons a l ih =>
    simp only [tryMap, h a (List.mem_cons_self a l),
      ih (fun x hx => h x (List.mem_cons_of_mem a hx)), List.map]

theorem tryMap_isSome (f : α → Option β) (l : List α)
    (h : ∀ a ∈ l, (f a).isSome) : ∃ bs, tryMap f l = some bs := by
  induction l with
  | nil => exact ⟨[], rfl⟩
  | cons a l ih =>
    rcases Option.isSome_iff_exists.mp (h a (List.mem_cons_self a l)) with ⟨b, hb⟩
    rcases ih (fun x hx => h x (List.mem_cons_of_mem a hx)) with ⟨bs, hbs⟩
    exact ⟨b :: bs, by simp [tryMap, hb, hbs]⟩

theorem length_idxFrom (i : Nat) (l : List α) :
    (idxFrom i l).length = l.length := by
  induction l generalizing i with
  | nil => rfl
  | cons a l ih => simp [idxFrom, ih]

theorem idxFrom_fst_ge (i : Nat) (l : List α) :
    ∀ p ∈ idxFrom i l, i ≤ p.1 := by
  induction l generalizing i with
  | nil => simp [idxFrom]
  | cons a l ih =>
    intro p hp
    rcases List.mem_cons.mp hp with rfl | hp
    · exact le_refl i
    · exact le_trans (Nat.le_succ i) (ih (i + 1) p hp)

theorem idxFrom_fst_nodup (i : Nat) (l : List α) :
    ((idxFrom i l).map Prod.fst).Nodup := by
  induction l generalizing i with
  | nil => simp [idxFrom]
  | cons a l ih =>
    simp only [idxFrom, List.map, List.nodup_cons]
    refine ⟨?_, ih (i + 1)⟩
    intro hmem
    rcases List.mem_map.mp hmem with ⟨p, hp, hfst⟩
    have := idxFrom_fst_ge (i + 1) l p hp
    omega

theorem idxFrom_fst_lt (i : Nat) (l : List α) :
    ∀ p ∈ idxFrom i l, p.1 < i + l.length := by
  induction l generalizing i with
  | nil => simp [idxFrom]
  | cons a l ih =>
    intro p hp
    rcases List.mem_cons.mp hp with rfl | hp
    · simp
    · have := ih (i + 1) p hp
      simp only [List.length_cons]
      omega

theorem dropWhile_length_le (p : α → Bool) (l : List α) :
    (l.dropWhile p).length ≤ l.length := by
  induction l with
  | nil => simp [List.dropWhile]
  | cons a l ih =>
    cases h : p a <;> simp [List.dropWhile_cons, h]
    omega

theorem dropWhile_congr_members (p q : α → Bool) (l : List α)
    (h : ∀ c ∈ l, p c = q c) : l.dropWhile p = l.dropWhile q := by
  induction l with
  | nil => rfl
  | cons a l ih =>
    have ha := h a (List.mem_cons_self a l)
    cases hpa : p a <;>
      simp [List.dropWhile_cons, hpa, ← ha,
        ih (fun c hc => h c (List.mem_cons_of_mem a hc))]

theorem dropWhile_head_false (p : α → Bool) (l : List α) (b : α) (t : List α)
    (h : l.dropWhile p = b :: t) : p b = false := by
  induction l with
  | nil => simp [List.dropWhile] at h
  | cons a l ih =>
    cases hpa : p a
    · rw [List.dropWhile_cons, hpa] at h
      simp only [Bool.false_eq_true, if_false] at h
      cases h
      exact hpa
    · rw [List.dropWhile_cons, hpa] at h
      simp only [if_true] at h
      exact ih h

theorem mem_of_mem_dropWhile (p : α → Bool) (l : List α) (c : α)
    (h : c ∈ l.dropWhile p) : c ∈ l := by
  induction l with
  | nil => simp [List.dropWhile] at h
  | cons a l ih =>
    cases hpa : p a
    · rw [List.dropWhile_cons, hpa] at h
      simpa using h
    · rw [List.dropWhile_cons, hpa] at h
      simp only [if_true] at h
      exact List.mem_cons_of_mem a (ih h)

theorem subSpaceRuns_eq_collapseAux (n : Nat) (l : List Char)
    (hn : l.length ≤ n)
    (hq : ∀ c ∈ l, isPySpace c = decide (c = ' ')) :
    subSpaceRuns l = collapseAux false l ∧
      subSpaceRuns (' ' :: l) = ' ' :: collapseAux true l := by
  induction n generalizing l with
  | zero =>
    have : l = [] := List.length_eq_zero.mp (Nat.le_zero.mp hn)
    subst this
    constructor
    · rfl
    · simp [subSpaceRuns, collapseAux, isPySpace]
  | succ n ih =>
    cases l with
    | nil =>
      constructor
      · rfl
      · simp [subSpaceRuns, collapseAux, isPySpace]
    | cons b t =>
      simp only [List.length_cons, Nat.succ_le_succ_iff] at hn
      have hqt : ∀ c ∈ t, isPySpace c = decide (c = ' ') :=
        fun c hc => hq c (List.mem_cons_of_mem b hc)
      have hqb := hq b (List.mem_cons_self b t)
      have iht := ih t hn hqt
      by_cases hb : b = ' '
      · subst hb
        have hfalse : subSpaceRuns (' ' :: t) = ' ' :: collapseAux true t := iht.2
        constructor
        · rw [hfalse]
          simp [collapseAux]
        · have hskip : subSpaceRuns (' ' :: ' ' :: t) = subSpaceRuns (' ' :: t) := by
            simp [subSpaceRuns, isPySpace]
          rw [hskip, hfalse]
          simp [collapseAux]
      · have hbs : isPySpace b = false := by
          rw [hqb]
          simp [hb]
        have hp1 : subSpaceRuns (b :: t) = collapseAux false (b :: t) := by
          cases t with
          | nil => simp [subSpaceRuns, collapseAux, hbs, hb]
          | cons c2 t2 =>
            have h3 : subSpaceRuns (b :: c2 :: t2) = b :: subSpaceRuns (c2 :: t2) := by
              simp [subSpaceRuns, hbs]
            rw [h3, (ih (c2 :: t2) (by simpa using hn) (fun c hc => hqt c hc)).1]
            simp [collapseAux, hb]
        constructor
        · exact hp1
        · have h4 : subSpaceRuns (' ' :: b :: t) = ' ' :: subSpaceRuns (b :: t) := by
            have hsp : isPySpace ' ' = true := by decide
            simp [subSpaceRuns, hsp, hbs]
          rw [h4, hp1]
          simp [collapseAux, hb]

theorem mem_subSpaceRuns (l : List Char) (c : Char)
    (h : c ∈ subSpaceRuns l) : c = ' ' ∨ c ∈ l := by
  induction l with
  | nil => simp [subSpaceRuns] at h
  | cons a l ih =>
    cases l with
    | nil =>
      by_cases ha : isPySpace a = true
      · simp [subSpaceRuns, ha] at h
        exact Or.inl h
      · simp only [Bool.not_eq_true] at ha
        simp [subSpaceRuns, ha] at h
        exact Or.inr (by simp [h])
    | cons b t =>
      by_cases hab : (isPySpace a && isPySpace b) = true
      · have h1 : subSpaceRuns (a :: b :: t) = subSpaceRuns (b :: t) := by
          simp [subSpaceRuns, hab]
        rw [h1] at h
        rcases ih h with h2 | h2
        · exact Or.inl h2
        · exact Or.inr (List.mem_cons_of_mem a h2)
      · simp only [Bool.not_eq_true] at hab
        have h1 : subSpaceRuns (a :: b :: t) =
            (if isPySpace a then ' ' else a) :: subSpaceRuns (b :: t) := by
          simp [subSpaceRuns, hab]
        rw [h1] at h
        rcases List.mem_cons.mp h with h2 | h2
        · by_cases ha : isPySpace a = true
          · rw [ha] at h2
            simp at h2
            exact Or.inl h2
          · simp only [Bool.not_eq_true] at ha
            rw [ha] at h2
            simp at h2
            exact Or.inr (by simp [h2])
        · rcases ih h2 with h3 | h3
          · exact Or.inl h3
          · exact Or.inr (List.mem_cons_of_mem a h3)

theorem stripEnds_eq_trimClaim (l : List Char)
    (hq : ∀ c ∈ l, isPySpace c = decide (c = ' ')) :
    stripEnds l = trimClaim l := by
  unfold stripEnds trimClaim
  rw [dropWhile_congr_members isPySpace (fun c => c = ' ') l hq]
  rw [dropWhile_congr_members isPySpace (fun c => c = ' ') _
    (fun c hc => hq c (mem_of_mem_dropWhile _ l c (List.mem_reverse.mp hc)))]

theorem allowed_space_iff (c : Char) (h : allowedChar c = true) :
    isPySpace c = decide (c = ' ') := by
  by_cases hc : c = ' '
  · subst hc
    decide
  · have h2 : decide (c = ' ') = false := by simp [hc]
    rw [h2]
    have ht : c ≠ '\t' := by rintro rfl; exact absurd h (by decide)
    have hn : c ≠ '\n' := by rintro rfl; exact absurd h (by decide)
    have hr : c ≠ '\r' := by rintro rfl; exact absurd h (by decide)
    have hv : c ≠ '\x0b' := by rintro rfl; exact absurd h (by decide)
    have hf : c ≠ '\x0c' := by rintro rfl; exact absurd h (by decide)
    simp [isPySpace, hc, ht, hn, hr, hv, hf]

theorem clean_text_eq_amendedPipeline (s : List Char) :
    clean_text s = cleanTextAmended s := by
  unfold clean_text cleanTextAmended
  have ht : (s.map pyLower).map (fun c => if allowedChar c then c else ' ') =
      subDisallowed (s.map pyLower) := rfl
  rw [ht]
  have hq : ∀ c ∈ subDisallowed (s.map pyLower),
      isPySpace c = decide (c = ' ') := by
    intro c hc
    rcases List.mem_map.mp hc with ⟨c0, _, rfl⟩
    by_cases hall : allowedChar c0 = true
    · simpa [hall] using allowed_space_iff c0 hall
    · simp only [Bool.not_eq_true] at hall
      simp [hall]
      decide
  rw [(subSpaceRuns_eq_collapseAux (subDisallowed (s.map pyLower)).length _
    (le_refl _) hq).1]
  show stripEnds (collapseClaim _) = trimClaim (collapseClaim _)
  apply stripEnds_eq_trimClaim
  intro c hc
  simp only [collapseClaim] at hc
  rw [← (subSpaceRuns_eq_collapseAux (subDisallowed (s.map pyLower)).length _
    (le_refl _) hq).1] at hc
  rcases mem_subSpaceRuns _ c hc with rfl | hc2
  · decide
  · exact hq c hc2

theorem haversineOSM_symm (lat1 lon1 lat2 lon2 : ℝ) :
    haversineOSM lat1 lon1 lat2 lon2 = haversineOSM lat2 lon2 lat1 lon1 := by
  unfold haversineOSM pyRadians
  have h1 : (lat1 - lat2) * Real.pi / 180 / 2 =
      -((lat2 - lat1) * Real.pi / 180 / 2) := by ring
  have h2 : (lon1 - lon2) * Real.pi / 180 / 2 =
      -((lon2 - lon1) * Real.pi / 180 / 2) := by ring
  rw [h1, h2, Real.sin_neg, Real.sin_neg]
  ring_nf

theorem haversineOSM_self (lat lon : ℝ) : haversineOSM lat lon lat lon = 0 := by
  unfold haversineOSM pyRadians
  simp

theorem haversineDS_eq_haversineOSM (lat1 lon1 lat2 lon2 : ℝ) :
    haversineDS lat1 lon1 lat2 lon2 = haversineOSM lat1 lon1 lat2 lon2 := rfl

theorem scoreHitLive_spec (user_lat user_lon radius : ℚ)
    (dist : ℚ → ℚ → ℚ → ℚ → ℚ) (r : OSMRecord) (sim : ℚ) (x : RankedOSM)
    (h : scoreHitLive user_lat user_lon radius dist r sim = some x) :
    ∃ la lo, r.lat = some la ∧ r.lon = some lo ∧ radius ≠ 0 ∧
      x.record = r ∧ x.similarity = sim ∧
      x.distance_km = dist user_lat user_lon la lo ∧
      x.final_score = 0.6 * sim +
        0.4 * max 0 (1 - dist user_lat user_lon la lo / (radius / 1000)) := by
  unfold scoreHitLive at h
  cases hla : r.lat with
  | none => rw [hla] at h; cases h
  | some la =>
    cases hlo : r.lon with
    | none => rw [hla, hlo] at h; cases h
    | some lo =>
      rw [hla, hlo] at h
      simp only [Option.some_bind] at h
      by_cases hr : radius = 0
      · rw [if_pos hr] at h; cases h
      · rw [if_neg hr] at h
        cases h
        exact ⟨la, lo, rfl, rfl, hr, rfl, rfl, rfl, rfl⟩

theorem scoreHitLive_none (user_lat user_lon radius : ℚ)
    (dist : ℚ → ℚ → ℚ → ℚ → ℚ) (r : OSMRecord) (sim : ℚ)
    (h : r.lat = none ∨ r.lon = none) :
    scoreHitLive user_lat user_lon radius dist r sim = none := by
  unfold scoreHitLive
  rcases h with h | h
  · rw [h]
    rfl
  · rw [h]
    cases r.lat <;> rfl

theorem scoreHitDS_spec (user_lat user_lon : ℚ)
    (dist : ℚ → ℚ → ℚ → ℚ → ℚ) (r : DSRecord) (sim : ℚ) (x : RankedDS)
    (h : scoreHitDS user_lat user_lon dist r sim = some x) :
    ∃ lat lon rating,
      pyFloat (r.latitude.getD (.num 999)) = some lat ∧
      pyFloat (r.longitude.getD (.num 999)) = some lon ∧
      pyFloat (r.aggregate_rating.getD (.num 0)) = some rating ∧
      x.record = r ∧ x.similarity = sim ∧
      x.distance_km = (if lat = 999 ∨ lon = 999 then (9999 : ℚ)
        else dist user_lat user_lon lat lon) ∧
      x.rating_score = rating / 5 ∧
      x.distance_score = max 0 (1 - x.distance_km / 100) ∧
      x.final_score = 0.4 * sim + 0.25 * x.rating_score +
        0.35 * x.distance_score := by
  unfold scoreHitDS at h
  cases hla : pyFloat (r.latitude.getD (.num 999)) with
  | none => rw [hla] at h; cases h
  | some lat =>
    cases hlo : pyFloat (r.longitude.getD (.num 999)) with
    | none => rw [hla, hlo] at h; cases h
    | some lon =>
      cases hra : pyFloat (r.aggregate_rating.getD (.num 0)) with
      | none => rw [hla, hlo, hra] at h; cases h
      | some rating =>
        rw [hla, hlo, hra] at h
        simp only [Option.some_bind, Option.map_some', Option.some_inj] at h
        subst h
        exact ⟨lat, lon, rating, rfl, rfl, rfl, rfl, rfl, rfl, rfl, rfl, rfl⟩

theorem scoreHitLive_eq_total (user_lat user_lon radius : ℚ)
    (dist : ℚ → ℚ → ℚ → ℚ → ℚ) (r : OSMRecord) (sim : ℚ)
    (hla : r.lat.isSome) (hlo : r.lon.isSome) (hr : radius ≠ 0) :
    scoreHitLive user_lat user_lon radius dist r sim =
      some (scoreLiveTotal user_lat user_lon radius dist r sim) := by
  rcases Option.isSome_iff_exists.mp hla with ⟨la, hla'⟩
  rcases Option.isSome_iff_exists.mp hlo with ⟨lo, hlo'⟩
  unfold scoreHitLive scoreLiveTotal
  rw [hla', hlo']
  simp only [Option.some_bind, if_neg hr, Option.getD_some]

theorem scoreHitDS_eq_total (user_lat user_lon : ℚ)
    (dist : ℚ → ℚ → ℚ → ℚ → ℚ) (r : DSRecord) (sim : ℚ)
    (hla : (pyFloat (r.latitude.getD (.num 999))).isSome)
    (hlo : (pyFloat (r.longitude.getD (.num 999))).isSome)
    (hra : (pyFloat (r.aggregate_rating.getD (.num 0))).isSome) :
    scoreHitDS user_lat user_lon dist r sim =
      some (scoreDSTotal user_lat user_lon dist r sim) := by
  rcases Option.isSome_iff_exists.mp hla with ⟨la, hla'⟩
  rcases Option.isSome_iff_exists.mp hlo with ⟨lo, hlo'⟩
  rcases Option.isSome_iff_exists.mp hra with ⟨ra, hra'⟩
  unfold scoreHitDS scoreDSTotal
  rw [hla', hlo', hra']
  simp only [Option.some_bind, Option.map_some', Option.getD_some]

theorem getElem?_eq_some_getD (l : List α) (i : Nat) (d : α)
    (h : i < l.length) : l[i]? = some (l.getD i d) := by
  rw [List.getD_eq_getElem?_getD l i d, List.getElem?_eq_getElem h]
  rfl

theorem idxFrom_map_getD (L : List β) (d : β) :
    ∀ (i : Nat) (scores : List ℚ), i + scores.length = L.length →
      (idxFrom i scores).map (fun h => L.getD h.1 d) = L.drop i := by
  intro i scores
  induction scores generalizing i with
  | nil =>
    intro h
    simp only [List.length_nil, Nat.add_zero] at h
    subst h
    simp [idxFrom, List.drop_length]
  | cons s rest ih =>
    intro h
    simp only [List.length_cons] at h
    have hi : i < L.length := by omega
    have hrec := ih (i + 1) (by omega)
    simp only [idxFrom, List.map, hrec]
    rw [List.drop_eq_getElem_cons hi]
    congr 1
    rw [List.getD_eq_getElem?_getD, List.getElem?_eq_getElem hi]
    rfl

theorem mem_of_getElemOpt (l : List α) (i : Nat) (a : α)
    (h : l[i]? = some a) : a ∈ l := by
  rcases List.getElem?_eq_some.mp h with ⟨hlt, rfl⟩
  exact List.getElem_mem hlt

theorem osmRecommend_eq (embedSim : String → ℚ) (dist : ℚ → ℚ → ℚ → ℚ → ℚ)
    (restaurants : List OSMRecord) (user_lat user_lon radius : ℚ) (k : Nat)
    (pre : List RankedOSM) (hne : restaurants ≠ [])
    (hpre : osmRanked embedSim dist restaurants user_lat user_lon radius k = some pre) :
    osmRecommend embedSim dist restaurants user_lat user_lon radius k =
      some ((sortKeyDesc (fun x => x.final_score) pre).take k) := by
  unfold osmRecommend
  have hempty : restaurants.isEmpty = false := by
    cases restaurants
    · exact absurd rfl hne
    · rfl
  rw [hempty, hpre]
  rfl

theorem dsRecommend_eq (dsSim : DSRecord → ℚ) (dist : ℚ → ℚ → ℚ → ℚ → ℚ)
    (db : List DSRecord) (user_lat user_lon : ℚ) (k : Nat)
    (pre : List RankedDS)
    (hpre : dsRanked dsSim dist db user_lat user_lon k = some pre) :
    (recommend_restaurants dsSim dist db user_lat user_lon k).1 =
      some ((sortKeyDesc (fun x => x.final_score) pre).take k) := by
  unfold recommend_restaurants
  rw [hpre]
  rfl

theorem osmRecommend_inv (embedSim : String → ℚ) (dist : ℚ → ℚ → ℚ → ℚ → ℚ)
    (restaurants : List OSMRecord) (user_lat user_lon radius : ℚ) (k : Nat)
    (out : List RankedOSM)
    (hout : osmRecommend embedSim dist restaurants user_lat user_lon radius k =
      some out) :
    out = [] ∨
    ∃ pre, osmRanked embedSim dist restaurants user_lat user_lon radius k = some pre ∧
      out = (sortKeyDesc (fun x => x.final_score) pre).take k := by
  unfold osmRecommend at hout
  cases hempty : restaurants.isEmpty with
  | true =>
    rw [hempty] at hout
    simp only [if_true] at hout
    cases hout
    exact Or.inl rfl
  | false =>
    rw [hempty] at hout
    simp only [Bool.false_eq_true, if_false] at hout
    cases hpre : osmRanked embedSim dist restaurants user_lat user_lon radius k with
    | none => rw [hpre] at hout; cases hout
    | some pre =>
      rw [hpre] at hout
      simp only [Option.map_some', Option.some_inj] at hout
      exact Or.inr ⟨pre, rfl, hout.symm⟩

theorem dsRecommend_inv (dsSim : DSRecord → ℚ) (dist : ℚ → ℚ → ℚ → ℚ → ℚ)
    (db : List DSRecord) (user_lat user_lon : ℚ) (k : Nat)
    (out : List RankedDS)
    (hout : (recommend_restaurants dsSim dist db user_lat user_lon k).1 =
      some out) :
    ∃ pre, dsRanked dsSim dist db user_lat user_lon k = some pre ∧
      out = (sortKeyDesc (fun x => x.final_score) pre).take k := by
  unfold recommend_restaurants at hout
  cases hpre : dsRanked dsSim dist db user_lat user_lon k with
  | none => rw [hpre] at hout; cases hout
  | some pre =>
    rw [hpre] at hout
    simp only [Option.map_some', Option.some_inj] at hout
    exact ⟨pre, rfl, hout.symm⟩

theorem osmRanked_mem (embedSim : String → ℚ) (dist : ℚ → ℚ → ℚ → ℚ → ℚ)
    (restaurants : List OSMRecord) (user_lat user_lon radius : ℚ) (k : Nat)
    (pre : List RankedOSM)
    (hpre : osmRanked embedSim dist restaurants user_lat user_lon radius k = some pre) :
    ∀ x ∈ pre, ∃ r sim, r ∈ restaurants ∧
      scoreHitLive user_lat user_lon radius dist r sim = some x := by
  intro x hx
  rcases tryMap_mem _ _ _ hpre x hx with ⟨h, _, hfh⟩
  cases hget : restaurants[h.1]? with
  | none => rw [hget] at hfh; cases hfh
  | some r =>
    rw [hget] at hfh
    simp only [Option.some_bind] at hfh
    exact ⟨r, h.2, mem_of_getElemOpt _ _ _ hget, hfh⟩

theorem dsRanked_mem (dsSim : DSRecord → ℚ) (dist : ℚ → ℚ → ℚ → ℚ → ℚ)
    (db : List DSRecord) (user_lat user_lon : ℚ) (k : Nat)
    (pre : List RankedDS)
    (hpre : dsRanked dsSim dist db user_lat user_lon k = some pre) :
    ∀ x ∈ pre, ∃ r sim, r ∈ db ∧
      scoreHitDS user_lat user_lon dist r sim = some x := by
  intro x hx
  rcases tryMap_mem _ _ _ hpre x hx with ⟨h, _, hfh⟩
  cases hget : db[h.1]? with
  | none => rw [hget] at hfh; cases hfh
  | some r =>
    rw [hget] at hfh
    simp only [Option.some_bind] at hfh
    exact ⟨r, h.2, mem_of_getElemOpt _ _ _ hget, hfh⟩

theorem osmRecommend_mem_scored (embedSim : String → ℚ)
    (dist : ℚ → ℚ → ℚ → ℚ → ℚ) (restaurants : List OSMRecord)
    (user_lat user_lon radius : ℚ) (k : Nat) (out : List RankedOSM)
    (hout : osmRecommend embedSim dist restaurants user_lat user_lon radius k =
      some out) :
    ∀ x ∈ out, ∃ r sim, r ∈ restaurants ∧
      scoreHitLive user_lat user_lon radius dist r sim = some x := by
  intro x hx
  rcases osmRecommend_inv _ _ _ _ _ _ _ _ hout with rfl | ⟨pre, hpre, rfl⟩
  · cases hx
  · have hx2 : x ∈ pre := by
      have h1 : x ∈ sortKeyDesc (fun x => x.final_score) pre :=
        (List.take_sublist k _).mem hx
      exact (mem_sortKeyDesc _ pre x).mp h1
    exact osmRanked_mem _ _ _ _ _ _ _ _ hpre x hx2

theorem dsRecommend_mem_scored (dsSim : DSRecord → ℚ)
    (dist : ℚ → ℚ → ℚ → ℚ → ℚ) (db : List DSRecord)
    (user_lat user_lon : ℚ) (k : Nat) (out : List RankedDS)
    (hout : (recommend_restaurants dsSim dist db user_lat user_lon k).1 =
      some out) :
    ∀ x ∈ out, ∃ r sim, r ∈ db ∧
      scoreHitDS user_lat user_lon dist r sim = some x := by
  intro x hx
  rcases dsRecommend_inv _ _ _ _ _ _ _ hout with ⟨pre, hpre, rfl⟩
  have hx2 : x ∈ pre := by
    have h1 : x ∈ sortKeyDesc (fun x => x.final_score) pre :=
      (List.take_sublist k _).mem hx
    exact (mem_sortKeyDesc _ pre x).mp h1
  exact dsRanked_mem _ _ _ _ _ _ _ hpre x hx2

theorem searchIndex_all (scores : List ℚ) (k : Nat) (hk : scores.length ≤ k) :
    searchIndex scores k = sortKeyDesc (fun p => p.2) (idxFrom 0 scores) := by
  unfold searchIndex
  apply List.take_of_length_le
  rw [length_sortKeyDesc, length_idxFrom]
  exact hk

theorem osmRanked_all (embedSim : String → ℚ) (dist : ℚ → ℚ → ℚ → ℚ → ℚ)
    (restaurants : List OSMRecord) (user_lat user_lon radius : ℚ) (k : Nat)
    (hk : restaurants.length ≤ k) (hr : radius ≠ 0)
    (hcoords : ∀ r ∈ restaurants, r.lat.isSome ∧ r.lon.isSome) :
    ∃ pre, osmRanked embedSim dist restaurants user_lat user_lon radius k = some pre ∧
      pre.length = restaurants.length ∧
      List.Perm (pre.map (fun x => x.record)) restaurants := by
  have hslen : (restaurants.map (fun r => embedSim (build_description r))).length =
      restaurants.length := List.length_map _ _
  have hhits : searchIndex (restaurants.map (fun r => embedSim (build_description r))) k =
      sortKeyDesc (fun p => p.2)
        (idxFrom 0 (restaurants.map (fun r => embedSim (build_description r)))) :=
    searchIndex_all _ k (by rw [hslen]; exact hk)
  have hmemidx : ∀ h ∈ sortKeyDesc (fun p => p.2)
      (idxFrom 0 (restaurants.map (fun r => embedSim (build_description r)))),
      h.1 < restaurants.length := by
    intro h hh
    have h1 := (mem_sortKeyDesc _ _ h).mp hh
    have h2 := idxFrom_fst_lt 0 _ h h1
    rw [hslen] at h2
    omega
  have hget : ∀ h ∈ sortKeyDesc (fun p => p.2)
      (idxFrom 0 (restaurants.map (fun r => embedSim (build_description r)))),
      restaurants[h.1]? = some (restaurants.getD h.1 default) := by
    intro h hh
    exact getElem?_eq_some_getD restaurants h.1 default (hmemidx h hh)
  have htry : tryMap
      (fun h => (restaurants[h.1]?).bind
        (fun r => scoreHitLive user_lat user_lon radius dist r h.2))
      (sortKeyDesc (fun p => p.2)
        (idxFrom 0 (restaurants.map (fun r => embedSim (build_description r))))) =
      some ((sortKeyDesc (fun p => p.2)
        (idxFrom 0 (restaurants.map (fun r => embedSim (build_description r))))).map
          (fun h => scoreLiveTotal user_lat user_lon radius dist
            (restaurants.getD h.1 default) h.2)) := by
    apply tryMap_eq_map
    intro h hh
    rw [hget h hh]
    simp only [Option.some_bind]
    have hmem : restaurants.getD h.1 default ∈ restaurants :=
      mem_of_getElemOpt _ _ _ (hget h hh)
    exact scoreHitLive_eq_total user_lat user_lon radius dist _ h.2
      (hcoords _ hmem).1 (hcoords _ hmem).2 hr
  refine ⟨_, by rw [osmRanked, hhits, htry], ?_, ?_⟩
  · rw [List.length_map, length_sortKeyDesc, length_idxFrom, hslen]
  · rw [List.map_map]
    have hcomp : ((fun x : RankedOSM => x.record) ∘
        (fun h : Nat × ℚ => scoreLiveTotal user_lat user_lon radius dist
          (restaurants.getD h.1 default) h.2)) =
        fun h : Nat × ℚ => restaurants.getD h.1 default := rfl
    rw [hcomp]
    have hperm := (sortKeyDesc_perm (fun p : Nat × ℚ => p.2)
      (idxFrom 0 (restaurants.map (fun r => embedSim (build_description r))))).map
        (fun h : Nat × ℚ => restaurants.getD h.1 default)
    have hid : (idxFrom 0 (restaurants.map (fun r => embedSim (build_description r)))).map
        (fun h : Nat × ℚ => restaurants.getD h.1 default) = restaurants := by
      have := idxFrom_map_getD restaurants default 0
        (restaurants.map (fun r => embedSim (build_description r)))
        (by rw [hslen]; omega)
      rw [List.drop_zero] at this
      exact this
    rw [hid] at hperm
    exact hperm

theorem dsRanked_all (dsSim : DSRecord → ℚ) (dist : ℚ → ℚ → ℚ → ℚ → ℚ)
    (db : List DSRecord) (user_lat user_lon : ℚ) (k : Nat)
    (hk : db.length ≤ k)
    (hconv : ∀ r ∈ db, (pyFloat (r.latitude.getD (.num 999))).isSome ∧
      (pyFloat (r.longitude.getD (.num 999))).isSome ∧
      (pyFloat (r.aggregate_rating.getD (.num 0))).isSome) :
    ∃ pre, dsRanked dsSim dist db user_lat user_lon k = some pre ∧
      pre.length = db.length ∧
      List.Perm (pre.map (fun x => x.record)) db := by
  have hslen : (db.map dsSim).length = db.length := List.length_map _ _
  have hhits : searchIndex (db.map dsSim) k =
      sortKeyDesc (fun p => p.2) (idxFrom 0 (db.map dsSim)) :=
    searchIndex_all _ k (by rw [hslen]; exact hk)
  have hmemidx : ∀ h ∈ sortKeyDesc (fun p => p.2) (idxFrom 0 (db.map dsSim)),
      h.1 < db.length := by
    intro h hh
    have h1 := (mem_sortKeyDesc _ _ h).mp hh
    have h2 := idxFrom_fst_lt 0 _ h h1
    rw [hslen] at h2
    omega
  have hget : ∀ h ∈ sortKeyDesc (fun p => p.2) (idxFrom 0 (db.map dsSim)),
      db[h.1]? = some (db.getD h.1 default) := by
    intro h hh
    exact getElem?_eq_some_getD db h.1 default (hmemidx h hh)
  have htry : tryMap
      (fun h => (db[h.1]?).bind
        (fun r => scoreHitDS user_lat user_lon dist r h.2))
      (sortKeyDesc (fun p => p.2) (idxFrom 0 (db.map dsSim))) =
      some ((sortKeyDesc (fun p => p.2) (idxFrom 0 (db.map dsSim))).map
        (fun h => scoreDSTotal user_lat user_lon dist (db.getD h.1 default) h.2)) := by
    apply tryMap_eq_map
    intro h hh
    rw [hget h hh]
    simp only [Option.some_bind]
    have hmem : db.getD h.1 default ∈ db := mem_of_getElemOpt _ _ _ (hget h hh)
    exact scoreHitDS_eq_total user_lat user_lon dist _ h.2
      (hconv _ hmem).1 (hconv _ hmem).2.1 (hconv _ hmem).2.2
  refine ⟨_, by rw [dsRanked, hhits, htry], ?_, ?_⟩
  · rw [List.length_map, length_sortKeyDesc, length_idxFrom, hslen]
  · rw [List.map_map]
    have hcomp : ((fun x : RankedDS => x.record) ∘
        (fun h : Nat × ℚ => scoreDSTotal user_lat user_lon dist
          (db.getD h.1 default) h.2)) =
        fun h : Nat × ℚ => db.getD h.1 default := rfl
    rw [hcomp]
    have hperm := (sortKeyDesc_perm (fun p : Nat × ℚ => p.2)
      (idxFrom 0 (db.map dsSim))).map (fun h : Nat × ℚ => db.getD h.1 default)
    have hid : (idxFrom 0 (db.map dsSim)).map
        (fun h : Nat × ℚ => db.getD h.1 default) = db := by
      have := idxFrom_map_getD db default 0 (db.map dsSim) (by rw [hslen]; omega)
      rw [List.drop_zero] at this
      exact this
    rw [hid] at hperm
    exact hperm

theorem osmRecommend_nil (embedSim : String → ℚ) (dist : ℚ → ℚ → ℚ → ℚ → ℚ)
    (user_lat user_lon radius : ℚ) (k : Nat) :
    osmRecommend embedSim dist [] user_lat user_lon radius k = some [] := rfl

/-- C4: for every upstream failure mode of the live candidate fetch
(non-200 status, malformed/non-JSON body, missing top-level `elements`
field, network timeout, or any other transport exception) the fetch
returns an empty list instead of raising, and `recommend` then completes
with an empty result list rather than an error. -/
theorem claim_C4 (resp : FetchResponse) (hfail : fetchFailure resp) :
    fetch_osm_restaurants resp = [] ∧
    ∀ (embedSim : String → ℚ) (dist : ℚ → ℚ → ℚ → ℚ → ℚ)
      (user_lat user_lon radius : ℚ) (k : Nat),
      osmRecommend embedSim dist (fetch_osm_restaurants resp)
        user_lat user_lon radius k = some [] := by
  have hempty : fetch_osm_restaurants resp = [] := by
    cases resp with
    | timeout => rfl
    | transportError => rfl
    | response status body =>
      simp only [fetch_osm_restaurants]
      by_cases hst : status = 200
      · rw [if_neg (by simp [hst])]
        rcases hfail with h | h | h
        · exact absurd hst h
        · rw [h]
        · rw [h]
      · rw [if_pos hst]
  refine ⟨hempty, ?_⟩
  intro embedSim dist user_lat user_lon radius k
  rw [hempty]
  exact osmRecommend_nil embedSim dist user_lat user_lon radius k

/-- C6: every OSM element whose tags lack a `name` entry is absent from
the normalized candidate output of the live variant, and every record in
the normalized output stems from an element carrying a name tag. -/
theorem claim_C6 (elems : List OSMElement) :
    (∀ e ∈ elems, dictFind e.tags "name" = none → normalize_osm e = none) ∧
    (∀ r ∈ fetch_osm_restaurants (.response 200 (.jsonElements elems)),
      ∃ e ∈ elems, (dictFind e.tags "name").isSome ∧
        normalize_osm e = some r) := by
  constructor
  · intro e _ hname
    unfold normalize_osm
    rw [hname]
    rfl
  · intro r hr
    have hfetch : fetch_osm_restaurants (.response 200 (.jsonElements elems)) =
        (elems.map normalize_osm).filterMap id := rfl
    rw [hfetch] at hr
    rcases List.mem_filterMap.mp hr with ⟨o, ho, hid⟩
    rcases List.mem_map.mp ho with ⟨e, he, rfl⟩
    refine ⟨e, he, ?_, hid⟩
    by_cases hname : (dictFind e.tags "name").isSome
    · exact hname
    · exfalso
      unfold normalize_osm at hid
      rw [Bool.not_eq_true] at hname
      rw [hname] at hid
      cases hid

/-- C7: the Haversine distance implementations of both variants are
symmetric in their two coordinate pairs, and vanish on equal pairs, over
exact real arithmetic. -/
theorem claim_C7 :
    (∀ lat1 lon1 lat2 lon2 : ℝ,
      haversineOSM lat1 lon1 lat2 lon2 = haversineOSM lat2 lon2 lat1 lon1 ∧
      haversineDS lat1 lon1 lat2 lon2 = haversineDS lat2 lon2 lat1 lon1) ∧
    (∀ lat lon : ℝ,
      haversineOSM lat lon lat lon = 0 ∧ haversineDS lat lon lat lon = 0) := by
  constructor
  · intro lat1 lon1 lat2 lon2
    refine ⟨haversineOSM_symm lat1 lon1 lat2 lon2, ?_⟩
    rw [haversineDS_eq_haversineOSM, haversineDS_eq_haversineOSM]
    exact haversineOSM_symm lat1 lon1 lat2 lon2
  · intro lat lon
    refine ⟨haversineOSM_self lat lon, ?_⟩
    rw [haversineDS_eq_haversineOSM]
    exact haversineOSM_self lat lon

/-- C8 (amended): `clean_text` lower-cases its input, REPLACES each
character outside the allowed set by a space (rather than removing it),
collapses runs of whitespace to a single space, and trims both ends. -/
theorem claim_C8 (s : List Char) : clean_text s = cleanTextAmended s :=
  clean_text_eq_amendedPipeline s

/-- C8 counterexample: on `"a-b"` the code produces `"a b"` (the hyphen
becomes a separating space), not the `"ab"` demanded by the claim's
strip-outside-characters reading. -/
theorem claim_C8_counterexample :
    clean_text ("a-b".toList) ≠ cleanTextClaim ("a-b".toList) := by decide

/-- C10: normalization of an element that has a name tag yields a record
with exactly the eleven fields of the dict literal, where every
tag-derived field whose source tag is absent is the string `"unknown"`. -/
theorem claim_C10 (e : OSMElement) (hname : (dictFind e.tags "name").isSome) :
    ∃ r, normalize_osm e = some r ∧
      r.id = e.id ∧ r.lat = e.lat ∧ r.lon = e.lon ∧
      r.name = tagsGetD e.tags "name" "Unknown" ∧
      (dictFind e.tags "cuisine" = none → r.cuisine = "unknown") ∧
      (dictFind e.tags "opening_hours" = none → r.opening_hours = "unknown") ∧
      (dictFind e.tags "addr:city" = none → r.city = "unknown") ∧
      (dictFind e.tags "addr:street" = none → r.street = "unknown") ∧
      (dictFind e.tags "addr:suburb" = none → r.neighborhood = "unknown") ∧
      (dictFind e.tags "addr:housenumber" = none → r.number = "unknown") ∧
      (dictFind e.tags "amenity" = none → r.amenity = "unknown") := by
  unfold normalize_osm
  rw [hname]
  simp only [if_true]
  refine ⟨_, rfl, rfl, rfl, rfl, rfl, ?_, ?_, ?_, ?_, ?_, ?_, ?_⟩ <;>
    (intro h; simp only [tagsGetD, h, Option.getD_none])

/-- C1: every hit in the ranked output carries a distance score of
`max(0, 1 - d / reference_km)` — reference `radius/1000` in the live
variant, the constant `100` in the dataset variant — and a final score of
`0.6·similarity + 0.4·distance_score` (live) respectively
`0.4·similarity + 0.25·(rating/5) + 0.35·distance_score` (dataset),
with `d` the distance the configured distance function returns between
the user location and the candidate's coordinates. -/
theorem claim_C1 :
    (∀ (embedSim : String → ℚ) (dist : ℚ → ℚ → ℚ → ℚ → ℚ)
       (restaurants : List OSMRecord) (user_lat user_lon radius : ℚ)
       (k : Nat) (out : List RankedOSM),
       osmRecommend embedSim dist restaurants user_lat user_lon radius k =
         some out →
       ∀ x ∈ out,
         (∃ la lo, x.record.lat = some la ∧ x.record.lon = some lo ∧
            x.distance_km = dist user_lat user_lon la lo) ∧
         x.final_score = 0.6 * x.similarity +
           0.4 * max 0 (1 - x.distance_km / (radius / 1000))) ∧
    (∀ (dsSim : DSRecord → ℚ) (dist : ℚ → ℚ → ℚ → ℚ → ℚ)
       (db : List DSRecord) (user_lat user_lon : ℚ) (k : Nat)
       (out : List RankedDS),
       (recommend_restaurants dsSim dist db user_lat user_lon k).1 = some out →
       ∀ x ∈ out,
         (∃ lat lon,
            pyFloat (x.record.latitude.getD (.num 999)) = some lat ∧
            pyFloat (x.record.longitude.getD (.num 999)) = some lon ∧
            x.distance_km = (if lat = 999 ∨ lon = 999 then (9999 : ℚ)
              else dist user_lat user_lon lat lon)) ∧
         x.distance_score = max 0 (1 - x.distance_km / 100) ∧
         (∃ rating,
            pyFloat (x.record.aggregate_rating.getD (.num 0)) = some rating ∧
            x.rating_score = rating / 5) ∧
         x.final_score = 0.4 * x.similarity + 0.25 * x.rating_score +
           0.35 * x.distance_score) := by
  constructor
  · intro embedSim dist restaurants user_lat user_lon radius k out hout x hx
    rcases osmRecommend_mem_scored embedSim dist restaurants user_lat user_lon
      radius k out hout x hx with ⟨r, sim, _, hsc⟩
    rcases scoreHitLive_spec user_lat user_lon radius dist r sim x hsc with
      ⟨la, lo, hla, hlo, _, hxr, hxs, hxd, hxf⟩
    refine ⟨⟨la, lo, ?_, ?_, hxd⟩, ?_⟩
    · rw [hxr]; exact hla
    · rw [hxr]; exact hlo
    · rw [hxf, hxs, hxd]
  · intro dsSim dist db user_lat user_lon k out hout x hx
    rcases dsRecommend_mem_scored dsSim dist db user_lat user_lon k out
      hout x hx with ⟨r, sim, _, hsc⟩
    rcases scoreHitDS_spec user_lat user_lon dist r sim x hsc with
      ⟨lat, lon, rating, hla, hlo, hra, hxr, hxs, hxd, hxrs, hxds, hxf⟩
    refine ⟨⟨lat, lon, ?_, ?_, hxd⟩, hxds, ⟨rating, ?_, hxrs⟩, ?_⟩
    · rw [hxr]
      exact hla
    · rw [hxr]
      exact hlo
    · rw [hxr]
      exact hra
    · rw [hxf, hxs]

/-- C2: in both variants the recommendation output has length at most `k`,
is sorted by final score non-increasing, and results with equal final
scores keep the relative order in which the index search returned them
(`pre` is the scored hit list in index-search order). -/
theorem claim_C2 :
    (∀ (embedSim : String → ℚ) (dist : ℚ → ℚ → ℚ → ℚ → ℚ)
       (restaurants : List OSMRecord) (user_lat user_lon radius : ℚ)
       (k : Nat) (pre out : List RankedOSM),
       restaurants ≠ [] →
       osmRanked embedSim dist restaurants user_lat user_lon radius k = some pre →
       osmRecommend embedSim dist restaurants user_lat user_lon radius k = some out →
       out.length ≤ k ∧
       out.Pairwise (fun a b => b.final_score ≤ a.final_score) ∧
       ∀ c : ℚ, List.Sublist (out.filter (fun x => x.final_score = c))
         (pre.filter (fun x => x.final_score = c))) ∧
    (∀ (dsSim : DSRecord → ℚ) (dist : ℚ → ℚ → ℚ → ℚ → ℚ)
       (db : List DSRecord) (user_lat user_lon : ℚ) (k : Nat)
       (pre out : List RankedDS),
       db ≠ [] →
       dsRanked dsSim dist db user_lat user_lon k = some pre →
       (recommend_restaurants dsSim dist db user_lat user_lon k).1 = some out →
       out.length ≤ k ∧
       out.Pairwise (fun a b => b.final_score ≤ a.final_score) ∧
       ∀ c : ℚ, List.Sublist (out.filter (fun x => x.final_score = c))
         (pre.filter (fun x => x.final_score = c))) := by
  constructor
  · intro embedSim dist restaurants user_lat user_lon radius k pre out
      hne hpre hout
    have heq := osmRecommend_eq embedSim dist restaurants user_lat user_lon
      radius k pre hne hpre
    rw [hout] at heq
    have hform : out = (sortKeyDesc (fun x => x.final_score) pre).take k :=
      Option.some_inj.mp heq
    subst hform
    refine ⟨?_, ?_, ?_⟩
    · rw [List.length_take]
      exact min_le_left k _
    · exact (sortKeyDesc_sorted (fun x => x.final_score) pre).sublist
        (List.take_sublist k _)
    · intro c
      have h1 := (List.take_sublist k
        (sortKeyDesc (fun x : RankedOSM => x.final_score) pre)).filter
          (fun x => decide (x.final_score = c))
      have h2 := filter_sortKeyDesc (fun x : RankedOSM => x.final_score) c pre
      rw [h2] at h1
      exact h1
  · intro dsSim dist db user_lat user_lon k pre out hne hpre hout
    have heq := dsRecommend_eq dsSim dist db user_lat user_lon k pre hpre
    rw [hout] at heq
    have hform : out = (sortKeyDesc (fun x => x.final_score) pre).take k :=
      Option.some_inj.mp heq
    subst hform
    refine ⟨?_, ?_, ?_⟩
    · rw [List.length_take]
      exact min_le_left k _
    · exact (sortKeyDesc_sorted (fun x => x.final_score) pre).sublist
        (List.take_sublist k _)
    · intro c
      have h1 := (List.take_sublist k
        (sortKeyDesc (fun x : RankedDS => x.final_score) pre)).filter
          (fun x => decide (x.final_score = c))
      have h2 := filter_sortKeyDesc (fun x : RankedDS => x.final_score) c pre
      rw [h2] at h1
      exact h1

/-- C9: ranking never mutates the candidate records: the dataset variant
returns the shared record list unchanged and every result wraps a record
of that list intact; the live variant's results likewise wrap fetched
records unchanged. -/
theorem claim_C9 :
    (∀ (dsSim : DSRecord → ℚ) (dist : ℚ → ℚ → ℚ → ℚ → ℚ)
       (db : List DSRecord) (user_lat user_lon : ℚ) (k : Nat),
       (recommend_restaurants dsSim dist db user_lat user_lon k).2 = db ∧
       ∀ out, (recommend_restaurants dsSim dist db user_lat user_lon k).1 =
           some out →
         ∀ x ∈ out, x.record ∈ db) ∧
    (∀ (embedSim : String → ℚ) (dist : ℚ → ℚ → ℚ → ℚ → ℚ)
       (restaurants : List OSMRecord) (user_lat user_lon radius : ℚ)
       (k : Nat) (out : List RankedOSM),
       osmRecommend embedSim dist restaurants user_lat user_lon radius k =
         some out →
       ∀ x ∈ out, x.record ∈ restaurants) := by
  constructor
  · intro dsSim dist db user_lat user_lon k
    refine ⟨rfl, ?_⟩
    intro out hout x hx
    rcases dsRecommend_mem_scored dsSim dist db user_lat user_lon k out
      hout x hx with ⟨r, sim, hr, hsc⟩
    rcases scoreHitDS_spec user_lat user_lon dist r sim x hsc with
      ⟨_, _, _, _, _, _, hxr, _⟩
    rw [hxr]
    exact hr
  · intro embedSim dist restaurants user_lat user_lon radius k out hout x hx
    rcases osmRecommend_mem_scored embedSim dist restaurants user_lat user_lon
      radius k out hout x hx with ⟨r, sim, hr, hsc⟩
    rcases scoreHitLive_spec user_lat user_lon radius dist r sim x hsc with
      ⟨_, _, _, _, _, hxr, _⟩
    rw [hxr]
    exact hr

/-- C5 (amended): only the dataset variant guards coordinates, and only
against MISSING values: a record whose `Latitude`/`Longitude` key is
absent gets the sentinel `999`, hence `distance_km = 9999` and distance
score `0`, without an error; a present but non-convertible coordinate
value still raises in the dataset variant, and the live variant has no
guard at all (missing coordinates raise there). -/
theorem claim_C5 :
    (∀ (dsSim : DSRecord → ℚ) (dist : ℚ → ℚ → ℚ → ℚ → ℚ)
       (db : List DSRecord) (user_lat user_lon : ℚ) (k : Nat)
       (out : List RankedDS),
       (recommend_restaurants dsSim dist db user_lat user_lon k).1 = some out →
       ∀ x ∈ out, (x.record.latitude = none ∨ x.record.longitude = none) →
         x.distance_km = 9999 ∧ x.distance_score = 0) ∧
    (∀ (user_lat user_lon : ℚ) (dist : ℚ → ℚ → ℚ → ℚ → ℚ)
       (r : DSRecord) (sim : ℚ),
       (r.latitude = none ∨ r.longitude = none) →
       (pyFloat (r.latitude.getD (.num 999))).isSome →
       (pyFloat (r.longitude.getD (.num 999))).isSome →
       (pyFloat (r.aggregate_rating.getD (.num 0))).isSome →
       ∃ x, scoreHitDS user_lat user_lon dist r sim = some x ∧
         x.distance_km = 9999 ∧ x.distance_score = 0) ∧
    (∀ (user_lat user_lon radius : ℚ) (dist : ℚ → ℚ → ℚ → ℚ → ℚ)
       (r : OSMRecord) (sim : ℚ),
       (r.lat = none ∨ r.lon = none) →
       scoreHitLive user_lat user_lon radius dist r sim = none) := by
  refine ⟨?_, ?_, ?_⟩
  · intro dsSim dist db user_lat user_lon k out hout x hx hmiss
    rcases dsRecommend_mem_scored dsSim dist db user_lat user_lon k out
      hout x hx with ⟨r, sim, _, hsc⟩
    rcases scoreHitDS_spec user_lat user_lon dist r sim x hsc with
      ⟨lat, lon, rating, hla, hlo, _, hxr, _, hxd, _, hxds, _⟩
    rw [hxr] at hmiss
    have hsent : lat = 999 ∨ lon = 999 := by
      rcases hmiss with h | h
      · rw [h] at hla
        simp only [Option.getD_none, pyFloat, Option.some_inj] at hla
        exact Or.inl hla.symm
      · rw [h] at hlo
        simp only [Option.getD_none, pyFloat, Option.some_inj] at hlo
        exact Or.inr hlo.symm
    have hd : x.distance_km = 9999 := by rw [hxd, if_pos hsent]
    refine ⟨hd, ?_⟩
    rw [hxds, hd]
    exact max_eq_left (by norm_num)
  · intro user_lat user_lon dist r sim hmiss hla hlo hra
    refine ⟨scoreDSTotal user_lat user_lon dist r sim,
      scoreHitDS_eq_total user_lat user_lon dist r sim hla hlo hra, ?_, ?_⟩
    · unfold scoreDSTotal
      rcases hmiss with h | h <;>
        simp [h, pyFloat, Option.getD_none, Option.getD_some]
    · unfold scoreDSTotal
      rcases hmiss with h | h <;>
        · simp [h, pyFloat, Option.getD_none, Option.getD_some]
          norm_num
  · intro user_lat user_lon radius dist r sim hmiss
    exact scoreHitLive_none user_lat user_lon radius dist r sim hmiss

/-- C5 counterexample: a live candidate with a missing latitude makes
`recommend` raise (`none`), and a dataset record with a non-numeric
latitude makes `recommend_restaurants` raise (`none`) — neither record
receives a distance score of `0`. -/
theorem claim_C5_counterexample :
    osmRecommend (fun _ => 1) (fun _ _ _ _ => 0) [cRecNoLat] 0 0 1000 5 = none ∧
    (recommend_restaurants (fun _ => 1) (fun _ _ _ _ => 0) [cDsNonNum] 0 0 3).1 =
      none := by decide

/-- C3: the index search returns `min(k, n)` hits with pairwise-distinct
indices, and when fewer than `k` candidates exist both recommenders
return every stored candidate exactly once instead of raising. -/
theorem claim_C3 :
    (∀ (scores : List ℚ) (k : Nat),
       (searchIndex scores k).length = min k scores.length ∧
       ((searchIndex scores k).map Prod.fst).Nodup) ∧
    (∀ (embedSim : String → ℚ) (dist : ℚ → ℚ → ℚ → ℚ → ℚ)
       (restaurants : List OSMRecord) (user_lat user_lon radius : ℚ)
       (k : Nat),
       restaurants.length < k → radius ≠ 0 →
       (∀ r ∈ restaurants, r.lat.isSome ∧ r.lon.isSome) →
       ∃ out, osmRecommend embedSim dist restaurants user_lat user_lon radius k =
           some out ∧
         out.length = min k restaurants.length ∧
         List.Perm (out.map (fun x => x.record)) restaurants) ∧
    (∀ (dsSim : DSRecord → ℚ) (dist : ℚ → ℚ → ℚ → ℚ → ℚ)
       (db : List DSRecord) (user_lat user_lon : ℚ) (k : Nat),
       db.length < k →
       (∀ r ∈ db, (pyFloat (r.latitude.getD (.num 999))).isSome ∧
         (pyFloat (r.longitude.getD (.num 999))).isSome ∧
         (pyFloat (r.aggregate_rating.getD (.num 0))).isSome) →
       ∃ out, (recommend_restaurants dsSim dist db user_lat user_lon k).1 =
           some out ∧
         out.length = min k db.length ∧
         List.Perm (out.map (fun x => x.record)) db) := by
  refine ⟨?_, ?_, ?_⟩
  · intro scores k
    constructor
    · unfold searchIndex
      rw [List.length_take, length_sortKeyDesc, length_idxFrom]
    · unfold searchIndex
      have h0 : ((idxFrom 0 scores).map Prod.fst).Nodup :=
        idxFrom_fst_nodup 0 scores
      have hperm := (sortKeyDesc_perm (fun p : Nat × ℚ => p.2)
        (idxFrom 0 scores)).map Prod.fst
      have h1 : ((sortKeyDesc (fun p : Nat × ℚ => p.2)
          (idxFrom 0 scores)).map Prod.fst).Nodup := hperm.symm.nodup h0
      rw [List.map_take]
      exact h1.sublist (List.take_sublist k _)
  · intro embedSim dist restaurants user_lat user_lon radius k hk hr hcoords
    by_cases hemp : restaurants = []
    · subst hemp
      exact ⟨[], rfl, by simp, List.Perm.refl []⟩
    · rcases osmRanked_all embedSim dist restaurants user_lat user_lon radius k
        (Nat.le_of_lt hk) hr hcoords with ⟨pre, hpre, hplen, hpperm⟩
      have hout := osmRecommend_eq embedSim dist restaurants user_lat user_lon
        radius k pre hemp hpre
      have hsortlen : (sortKeyDesc (fun x : RankedOSM => x.final_score) pre).length =
          pre.length := length_sortKeyDesc _ pre
      have htake : (sortKeyDesc (fun x : RankedOSM => x.final_score) pre).take k =
          sortKeyDesc (fun x => x.final_score) pre := by
        apply List.take_of_length_le
        rw [hsortlen, hplen]
        exact Nat.le_of_lt hk
      rw [htake] at hout
      refine ⟨_, hout, ?_, ?_⟩
      · rw [hsortlen, hplen, min_eq_right (Nat.le_of_lt hk)]
      · exact ((sortKeyDesc_perm (fun x : RankedOSM => x.final_score) pre).map
          (fun x => x.record)).trans hpperm
  · intro dsSim dist db user_lat user_lon k hk hconv
    rcases dsRanked_all dsSim dist db user_lat user_lon k
      (Nat.le_of_lt hk) hconv with ⟨pre, hpre, hplen, hpperm⟩
    have hout := dsRecommend_eq dsSim dist db user_lat user_lon k pre hpre
    have hsortlen : (sortKeyDesc (fun x : RankedDS => x.final_score) pre).length =
        pre.length := length_sortKeyDesc _ pre
    have htake : (sortKeyDesc (fun x : RankedDS => x.final_score) pre).take k =
        sortKeyDesc (fun x => x.final_score) pre := by
      apply List.take_of_length_le
      rw [hsortlen, hplen]
      exact Nat.le_of_lt hk
    rw [htake] at hout
    refine ⟨_, hout, ?_, ?_⟩
    · rw [hsortlen, hplen, min_eq_right (Nat.le_of_lt hk)]
    · exact ((sortKeyDesc_perm (fun x : RankedDS => x.final_score) pre).map
        (fun x => x.record)).trans hpperm

theorem claim_C1_witness :
    ((∃ la lo, wX.record.lat = some la ∧ wX.record.lon = some lo ∧
        wX.distance_km = wDist 0 0 la lo) ∧
      wX.final_score = 0.6 * wX.similarity +
        0.4 * max 0 (1 - wX.distance_km / (1000 / 1000))) ∧
    ((∃ lat lon,
        pyFloat (wY.record.latitude.getD (.num 999)) = some lat ∧
        pyFloat (wY.record.longitude.getD (.num 999)) = some lon ∧
        wY.distance_km = (if lat = 999 ∨ lon = 999 then (9999 : ℚ)
          else wDist 0 0 lat lon)) ∧
      wY.distance_score = max 0 (1 - wY.distance_km / 100) ∧
      (∃ rating,
        pyFloat (wY.record.aggregate_rating.getD (.num 0)) = some rating ∧
        wY.rating_score = rating / 5) ∧
      wY.final_score = 0.4 * wY.similarity + 0.25 * wY.rating_score +
        0.35 * wY.distance_score) :=
  ⟨claim_C1.1 wSim wDist [wRecA, wRecB] 0 0 1000 5 wOutOSM
      (by norm_num [osmRecommend, osmRanked, searchIndex, sortKeyDesc, insKeyDesc,
      idxFrom, tryMap, scoreHitLive, wSim, wDist, wRecA, wRecB, wOutOSM, wX, wX2,
      List.take])
      wX (List.mem_cons_self wX [wX2]),
    claim_C1.2 (fun _ => 1) wDist [wDsA, wDsB] 0 0 3 wOutDS
      (by norm_num [recommend_restaurants, dsRanked, searchIndex, sortKeyDesc,
      insKeyDesc, idxFrom, tryMap, scoreHitDS, pyFloat, wDist, wDsA, wDsB, wOutDS,
      wY, wY2, List.take])
      wY (List.mem_cons_self wY [wY2])⟩

theorem claim_C2_witness :
    (wOutOSM.length ≤ 5 ∧
      wOutOSM.Pairwise (fun a b => b.final_score ≤ a.final_score) ∧
      List.Sublist (wOutOSM.filter (fun x => x.final_score = 3/5))
        (wOutOSM.filter (fun x => x.final_score = 3/5))) ∧
    (wOutDS.length ≤ 3 ∧
      wOutDS.Pairwise (fun a b => b.final_score ≤ a.final_score) ∧
      List.Sublist (wOutDS.filter (fun x => x.final_score = 943/1000))
        (wOutDS.filter (fun x => x.final_score = 943/1000))) := by
  constructor
  · have h := claim_C2.1 wSim wDist [wRecA, wRecB] 0 0 1000 5 wOutOSM wOutOSM
      (List.cons_ne_nil wRecA [wRecB])
      (by norm_num [osmRanked, searchIndex, sortKeyDesc, insKeyDesc,
        idxFrom, tryMap, scoreHitLive, wSim, wDist, wRecA, wRecB, wOutOSM, wX, wX2,
        List.take])
      (by norm_num [osmRecommend, osmRanked, searchIndex, sortKeyDesc, insKeyDesc,
        idxFrom, tryMap, scoreHitLive, wSim, wDist, wRecA, wRecB, wOutOSM, wX, wX2,
        List.take])
    exact ⟨h.1, h.2.1, h.2.2 (3/5)⟩
  · have h := claim_C2.2 (fun _ => 1) wDist [wDsA, wDsB] 0 0 3 wOutDS wOutDS
      (List.cons_ne_nil wDsA [wDsB])
      (by norm_num [dsRanked, searchIndex, sortKeyDesc,
        insKeyDesc, idxFrom, tryMap, scoreHitDS, pyFloat, wDist, wDsA, wDsB, wOutDS,
        wY, wY2, List.take])
      (by norm_num [recommend_restaurants, dsRanked, searchIndex, sortKeyDesc,
        insKeyDesc, idxFrom, tryMap, scoreHitDS, pyFloat, wDist, wDsA, wDsB, wOutDS,
        wY, wY2, List.take])
    exact ⟨h.1, h.2.1, h.2.2 (943/1000)⟩

theorem claim_C3_witness :
    ((searchIndex [1/2, 1] 3).length = min 3 2 ∧
      ((searchIndex [1/2, 1] 3).map Prod.fst).Nodup) ∧
    (∃ out, osmRecommend wSim wDist [wRecA, wRecB] 0 0 1000 5 = some out ∧
      out.length = min 5 2 ∧
      List.Perm (out.map (fun x => x.record)) [wRecA, wRecB]) ∧
    (∃ out, (recommend_restaurants (fun _ => 1) wDist [wDsA, wDsB] 0 0 3).1 =
        some out ∧
      out.length = min 3 2 ∧
      List.Perm (out.map (fun x => x.record)) [wDsA, wDsB]) :=
  ⟨claim_C3.1 [1/2, 1] 3,
    claim_C3.2.1 wSim wDist [wRecA, wRecB] 0 0 1000 5 (by norm_num)
      (by norm_num) (by decide),
    claim_C3.2.2 (fun _ => 1) wDist [wDsA, wDsB] 0 0 3 (by norm_num) (by decide)⟩

theorem claim_C4_witness :
    fetch_osm_restaurants .timeout = [] ∧
    osmRecommend wSim wDist (fetch_osm_restaurants .timeout) 0 0 1000 5 =
      some [] :=
  ⟨(claim_C4 .timeout trivial).1,
    (claim_C4 .timeout trivial).2 wSim wDist 0 0 1000 5⟩

theorem claim_C5_witness :
    (wY2.distance_km = 9999 ∧ wY2.distance_score = 0) ∧
    (∃ x, scoreHitDS 0 0 wDist wDsB 1 = some x ∧
      x.distance_km = 9999 ∧ x.distance_score = 0) ∧
    scoreHitLive 0 0 1000 wDist cRecNoLat 1 = none :=
  ⟨claim_C5.1 (fun _ => 1) wDist [wDsA, wDsB] 0 0 3 wOutDS
      (by norm_num [recommend_restaurants, dsRanked, searchIndex, sortKeyDesc,
      insKeyDesc, idxFrom, tryMap, scoreHitDS, pyFloat, wDist, wDsA, wDsB, wOutDS,
      wY, wY2, List.take])
      wY2 (List.mem_cons_of_mem wY (List.mem_cons_self wY2 [])) (Or.inl rfl),
    claim_C5.2.1 0 0 wDist wDsB 1 (Or.inl rfl) (by decide) (by decide)
      (by decide),
    claim_C5.2.2 0 0 1000 wDist cRecNoLat 1 (Or.inl rfl)⟩

theorem claim_C6_witness :
    normalize_osm wElemNoName = none ∧
    ∃ e ∈ [wElemNamed, wElemNoName], (dictFind e.tags "name").isSome ∧
      normalize_osm e = some wRecNamed :=
  ⟨(claim_C6 [wElemNamed, wElemNoName]).1 wElemNoName (by decide) (by decide),
    (claim_C6 [wElemNamed, wElemNoName]).2 wRecNamed (by decide)⟩

theorem claim_C9_witness :
    ((recommend_restaurants (fun _ => 1) wDist [wDsA, wDsB] 0 0 3).2 =
        [wDsA, wDsB] ∧
      wY.record ∈ [wDsA, wDsB]) ∧
    wX.record ∈ [wRecA, wRecB] :=
  ⟨⟨(claim_C9.1 (fun _ => 1) wDist [wDsA, wDsB] 0 0 3).1,
      (claim_C9.1 (fun _ => 1) wDist [wDsA, wDsB] 0 0 3).2 wOutDS
        (by norm_num [recommend_restaurants, dsRanked, searchIndex, sortKeyDesc,
      insKeyDesc, idxFrom, tryMap, scoreHitDS, pyFloat, wDist, wDsA, wDsB, wOutDS,
      wY, wY2, List.take])
        wY (List.mem_cons_self wY [wY2])⟩,
    claim_C9.2 wSim wDist [wRecA, wRecB] 0 0 1000 5 wOutOSM
      (by norm_num [osmRecommend, osmRanked, searchIndex, sortKeyDesc, insKeyDesc,
      idxFrom, tryMap, scoreHitLive, wSim, wDist, wRecA, wRecB, wOutOSM, wX, wX2,
      List.take])
      wX (List.mem_cons_self wX [wX2])⟩

theorem claim_C10_witness :
    ∃ r, normalize_osm wElemNamed = some r ∧
      r.id = wElemNamed.id ∧ r.lat = wElemNamed.lat ∧ r.lon = wElemNamed.lon ∧
      r.name = tagsGetD wElemNamed.tags "name" "Unknown" ∧
      (dictFind wElemNamed.tags "cuisine" = none → r.cuisine = "unknown") ∧
      (dictFind wElemNamed.tags "opening_hours" = none →
        r.opening_hours = "unknown") ∧
      (dictFind wElemNamed.tags "addr:city" = none → r.city = "unknown") ∧
      (dictFind wElemNamed.tags "addr:street" = none → r.street = "unknown") ∧
      (dictFind wElemNamed.tags "addr:suburb" = none →
        r.neighborhood = "unknown") ∧
      (dictFind wElemNamed.tags "addr:housenumber" = none →
        r.number = "unknown") ∧
      (dictFind wElemNamed.tags "amenity" = none → r.amenity = "unknown") :=
  claim_C10 wElemNamed (by decide)
